import Mathlib

/-!
Shallow embedding of moonraker's update_manager component
(src/moonraker/components/update_manager/update_manager.py) for verifying
the natural-language specification.  Pure functions are translated directly;
stateful handlers become explicit state-passing functions; exceptions become
Except values; emitted notifications are collected in lists.
-/

namespace Moonraker

/-! Python string primitives (str.strip, str.split) as structurally
recursive functions over the character list, so that every definition
evaluates inside the kernel. -/

/-- Python str.strip default whitespace set. -/
def pyIsSpace (c : Char) : Bool :=
  c == ' ' || c == '\t' || c == '\n' || c == '\r' || c == '\x0b' || c == '\x0c'

/-- Python str.strip on a character list. -/
def pyStripList (l : List Char) : List Char :=
  ((l.dropWhile pyIsSpace).reverse.dropWhile pyIsSpace).reverse

/-- Python str.strip. -/
def pyStrip (s : String) : String := ⟨pyStripList s.toList⟩

/-- Python str.split with a one-character separator (always returns at
least one piece). -/
def pySplitCharList (c : Char) : List Char → List (List Char)
  | [] => [[]]
  | x :: rest =>
    let r := pySplitCharList c rest
    if x == c then [] :: r
    else
      match r with
      | [] => [[x]]
      | h :: t => (x :: h) :: t

/-- Python str.split with a one-character separator, on strings. -/
def pySplit (s : String) (c : Char) : List String :=
  (pySplitCharList c s.toList).map (fun l => ⟨l⟩)

/-! CommandHelper session state (update_manager.py, class CommandHelper). -/

/-- Payload of an update_manager:update_response event
(CommandHelper.notify_update_response). -/
structure UpdateNotification where
  message : String
  application : String
  procId : Option Nat
  complete : Bool
deriving DecidableEq, Repr

/-- Update-in-progress tracking fields of CommandHelper
(cur_update_app, cur_update_id, full_update, full_complete,
pending_service_restarts). -/
structure CommandHelper where
  curUpdateApp : Option String := none
  curUpdateId : Option Nat := none
  fullUpdate : Bool := false
  fullComplete : Bool := false
  pendingServiceRestarts : List String := []
deriving DecidableEq, Repr

/-- CommandHelper.set_update_info -/
def chSetUpdateInfo (app : String) (uid : Nat) (ch : CommandHelper) : CommandHelper :=
  { ch with
    curUpdateApp := some app
    curUpdateId := some uid
    fullUpdate := app = "full"
    fullComplete := ¬(app = "full")
    pendingServiceRestarts := [] }

/-- CommandHelper.clear_update_info -/
def chClearUpdateInfo (ch : CommandHelper) : CommandHelper :=
  { ch with
    curUpdateApp := none
    curUpdateId := none
    fullUpdate := false
    fullComplete := false
    pendingServiceRestarts := [] }

/-- CommandHelper.set_full_complete -/
def chSetFullComplete (complete : Bool) (ch : CommandHelper) : CommandHelper :=
  { ch with fullComplete := complete }

/-- CommandHelper.add_pending_restart -/
def chAddPendingRestart (svcName : String) (ch : CommandHelper) : CommandHelper :=
  { ch with pendingServiceRestarts := svcName :: ch.pendingServiceRestarts }

/-- CommandHelper.needs_service_restart -/
def chNeedsServiceRestart (svcName : String) (ch : CommandHelper) : Bool :=
  svcName ∈ ch.pendingServiceRestarts

/-- CommandHelper.is_app_updating -/
def chIsAppUpdating (appName : String) (ch : CommandHelper) : Bool :=
  ch.curUpdateApp = some appName

/-- CommandHelper.is_update_busy -/
def chIsUpdateBusy (ch : CommandHelper) : Bool :=
  ch.curUpdateApp.isSome

/-- CommandHelper.notify_update_response: returns the emitted events
(empty when no update session is active).  The method mutates no state. -/
def notifyUpdateResponse (ch : CommandHelper) (resp : String)
    (isComplete : Bool) : List UpdateNotification :=
  match ch.curUpdateApp with
  | none => []
  | some app =>
    let done := if ch.fullUpdate then isComplete && ch.fullComplete else isComplete
    [{ message := pyStrip resp
       application := app
       procId := ch.curUpdateId
       complete := done }]

/-! Deployment behaviors.  The concrete deployment classes (GitDeploy,
ZipDeploy, AppDeploy internals) live outside this file's source; for the
orchestration claims only the observable outcome of one update() call
matters: either a returned bool or a raised exception (message).  A
successful update of an app deployment may register a pending service
restart through the CommandHelper (external AppDeploy behavior). -/

instance excDecEq {ε α : Type} [DecidableEq ε] [DecidableEq α] :
    DecidableEq (Except ε α) := fun x y =>
  match x, y with
  | Except.ok a, Except.ok b =>
    if h : a = b then isTrue (congrArg Except.ok h)
    else isFalse (fun hc => h (Except.ok.inj hc))
  | Except.error a, Except.error b =>
    if h : a = b then isTrue (congrArg Except.error h)
    else isFalse (fun hc => h (Except.error.inj hc))
  | Except.ok _, Except.error _ => isFalse (fun hc => Except.noConfusion hc)
  | Except.error _, Except.ok _ => isFalse (fun hc => Except.noConfusion hc)

/-- Observable behavior of one deployment for a single update() call. -/
structure DeployB where
  isApp : Bool := false
  updateOutcome : Except String Bool := Except.ok true
  addsRestart : Bool := false
deriving DecidableEq, Repr

/-- First-match association lookup, the dict access discipline of
self.updaters (a python dict has unique keys; a list with a nodup key
set models it, lookup returning the first hit). -/
def alookup (us : List (String × DeployB)) (key : String) : Option DeployB :=
  match us with
  | [] => none
  | (n, d) :: rest => if n = key then some d else alookup rest key

/-! Full update sequencing (UpdateManager._handle_full_update_request). -/

/-- Mutable context threaded through the full-update handler: the
CommandHelper, the emitted events, the sequence of update() calls made
(by deployment name) and the running app_name variable. -/
structure FullSt where
  ch : CommandHelper
  events : List UpdateNotification
  calls : List String
  appName : String
deriving DecidableEq, Repr

/-- Helper funneling cmd_helper.notify_update_response into the event log. -/
def emitResp (resp : String) (isComplete : Bool) (s : FullSt) : FullSt :=
  { s with events := s.events ++ notifyUpdateResponse s.ch resp isComplete }

/-- One awaited updater.update() call: records the attempt, then either
returns the bool result (registering a pending restart when the external
deployment does so) or raises. -/
def attemptUpdate (n : String) (d : DeployB) (s : FullSt) :
    FullSt × Except String Bool :=
  let s1 := { s with calls := s.calls ++ [n] }
  match d.updateOutcome with
  | Except.ok b =>
    let s2 := if d.addsRestart then { s1 with ch := chAddPendingRestart n s1.ch } else s1
    (s2, Except.ok b)
  | Except.error e => (s1, Except.error e)

/-- Lines 307-310: the system (Packages) phase, run when a system
deployment is configured. -/
def systemPhase (us : List (String × DeployB)) (s : FullSt) :
    FullSt × Option String :=
  match alookup us "system" with
  | some d =>
    let s1 := { s with appName := "system" }
    match attemptUpdate "system" d s1 with
    | (s2, Except.ok _) => (s2, none)
    | (s2, Except.error e) => (s2, some e)
  | none => (s, none)

/-- Lines 312-317: the client loop over the updater map in insertion
order, skipping klipper, moonraker and system. -/
def clientLoop (l : List (String × DeployB)) (s : FullSt) :
    FullSt × Option String :=
  match l with
  | [] => (s, none)
  | (n, d) :: rest =>
    if n = "klipper" ∨ n = "moonraker" ∨ n = "system" then clientLoop rest s
    else
      let s1 := { s with appName := n }
      match attemptUpdate n d s1 with
      | (s2, Except.ok _) => clientLoop rest s2
      | (s2, Except.error e) => (s2, some e)

/-- Lines 319-341: the klipper (Control process) phase, including the
reconnect handshake.  restart_service and the klippy wait are external
collaborators; the wait outcome is the klippyReconnects parameter. -/
def klipperPhase (us : List (String × DeployB)) (klippyReconnects : Bool)
    (s : FullSt) : FullSt × Option String :=
  let s0 := { s with appName := "klipper" }
  match alookup us "klipper" with
  | some d =>
    if d.isApp then
      match attemptUpdate "klipper" d s0 with
      | (s1, Except.error e) => (s1, some e)
      | (s1, Except.ok checkRestart) =>
        let checkRestart2 := checkRestart || chNeedsServiceRestart "klipper" s1.ch
        if checkRestart2 then
          let s2 := emitResp
            "Waiting for Klippy to reconnect (this may take up to 2 minutes)..."
            false s1
          let s3 :=
            if klippyReconnects then emitResp "Klippy Reconnected" false s2
            else emitResp "Klippy reconnect timed out..." false s2
          (s3, none)
        else (s1, none)
    else (s0, none)
  | none => (s0, none)

/-- Lines 343-348: the moonraker (Host application) phase.  The dict
subscript raises KeyError when moonraker is absent (it never is: the
constructor always registers it). -/
def moonrakerPhase (us : List (String × DeployB)) (s : FullSt) :
    FullSt × Option String :=
  let s0 := { s with appName := "moonraker" }
  match alookup us "moonraker" with
  | some d =>
    match attemptUpdate "moonraker" d s0 with
    | (s1, Except.error e) => (s1, some e)
    | (s1, Except.ok _) => (s1, none)
  | none => (s0, some "KeyError: moonraker")

/-- One phase of the try body in isolation: set app_name, then one
gated update() call (the common shape of the system, client and
moonraker phases). -/
def onePhase (n : String) (d : DeployB) (s : FullSt) : FullSt × Option String :=
  let s1 := { s with appName := n }
  match attemptUpdate n d s1 with
  | (s2, Except.ok _) => (s2, none)
  | (s2, Except.error e) => (s2, some e)

/-- Sequencing inside the try block: a phase runs only when the prior
phases finished without exception. -/
def andThenPhase (r : FullSt × Option String)
    (f : FullSt → FullSt × Option String) : FullSt × Option String :=
  match r with
  | (s, none) => f s
  | (s, some e) => (s, some e)

/-- The whole try body of _handle_full_update_request. -/
def fullUpdateTry (us : List (String × DeployB)) (klippyReconnects : Bool)
    (s : FullSt) : FullSt × Option String :=
  andThenPhase (andThenPhase (andThenPhase (systemPhase us s)
    (clientLoop us)) (klipperPhase us klippyReconnects)) (moonrakerPhase us)

/-- UpdateManager._handle_full_update_request (lines 298-358): the whole
handler under the command request lock, returning the final context and
the response string. -/
def handleFullUpdateRequest (us : List (String × DeployB)) (reqId : Nat)
    (klippyReconnects : Bool) (ch0 : CommandHelper) : FullSt × String :=
  let s0 : FullSt :=
    { ch := chSetUpdateInfo "full" reqId ch0, events := [], calls := [], appName := "" }
  let s1 := emitResp "Preparing full software update..." false s0
  match fullUpdateTry us klippyReconnects s1 with
  | (s, none) =>
    let s2 := { s with ch := chSetFullComplete true s.ch }
    let s3 := emitResp "Full Update Complete" true s2
    ({ s3 with ch := chClearUpdateInfo s3.ch }, "ok")
  | (s, some e) =>
    let s2 := { s with ch := chSetFullComplete true s.ch }
    let s3 := emitResp ("Error updating " ++ s.appName ++ ": " ++ e) true s2
    ({ s3 with ch := chClearUpdateInfo s3.ch }, "ok")

/-! Specification-side description of the full-update phase order
(spec section 4.5), to be compared with the handler transcription. -/

/-- The Packages phase of the spec order: the system deployment when
present. -/
def sysPart (us : List (String × DeployB)) : List (String × DeployB) :=
  match alookup us "system" with
  | some d => [("system", d)]
  | none => []

/-- The client phases of the spec order: every deployment in stable map
iteration order except the reserved names. -/
def clientsPart (l : List (String × DeployB)) : List (String × DeployB) :=
  l.filter (fun p => ¬(p.1 = "klipper" ∨ p.1 = "moonraker" ∨ p.1 = "system"))

/-- The Control-process phase of the spec order: klipper, when its
deployment is an app deployment. -/
def klipperPart (us : List (String × DeployB)) : List (String × DeployB) :=
  match alookup us "klipper" with
  | some d => if d.isApp then [("klipper", d)] else []
  | none => []

/-- The Host-application phase of the spec order: moonraker. -/
def moonPart (us : List (String × DeployB)) : List (String × DeployB) :=
  match alookup us "moonraker" with
  | some d => [("moonraker", d)]
  | none => []

/-- The ordered phase list the spec describes: Packages first (when
present), then clients in stable map order excluding the reserved names,
then the Control process (when it is an app deployment), then the Host
application. -/
def orderedPhases (us : List (String × DeployB)) : List (String × DeployB) :=
  sysPart us ++ clientsPart us ++ klipperPart us ++ moonPart us

/-- Names of the phases actually attempted when each phase is gated by
the success of all prior phases: the successful prefix plus the first
failing phase, if any. -/
def phasesRun (l : List (String × DeployB)) : List String :=
  match l with
  | [] => []
  | (n, d) :: rest =>
    match d.updateOutcome with
    | Except.ok _ => n :: phasesRun rest
    | Except.error _ => [n]

/-- Name and exception message of the first failing phase, if any. -/
def firstFailure (l : List (String × DeployB)) : Option (String × String) :=
  match l with
  | [] => none
  | (n, d) :: rest =>
    match d.updateOutcome with
    | Except.ok _ => firstFailure rest
    | Except.error e => some (n, e)

/-- Behavioral contract of one phase of the full-update try block with
respect to its phase list: the update calls it makes, the CommandHelper
session fields it leaves alone, the events it can only append, and the
error plus recorded app_name on the first failure. -/
def PhaseSpec (f : FullSt → FullSt × Option String)
    (pl : List (String × DeployB)) : Prop :=
  ∀ s : FullSt,
    (f s).1.calls = s.calls ++ phasesRun pl ∧
    (f s).1.ch.curUpdateApp = s.ch.curUpdateApp ∧
    (f s).1.ch.curUpdateId = s.ch.curUpdateId ∧
    (f s).1.ch.fullUpdate = s.ch.fullUpdate ∧
    (f s).1.ch.fullComplete = s.ch.fullComplete ∧
    (∃ tl, (f s).1.events = s.events ++ tl) ∧
    (match firstFailure pl with
     | none => (f s).2 = none
     | some (n, e) => (f s).2 = some e ∧ (f s).1.appName = n)

/-! Single-target update request (UpdateManager._handle_update_request,
lines 273-296). -/

/-- Observable result of one _handle_update_request call: the returned
value or raised exception, the final CommandHelper, the emitted events
and the update() calls made. -/
structure UpdateReqResult where
  outcome : Except String String
  ch : CommandHelper
  events : List UpdateNotification
  calls : List String
deriving DecidableEq, Repr

/-- UpdateManager._handle_update_request: printing is the klippy busy
signal, app the resolved target name, upd the updaters dict lookup. -/
def handleUpdateRequest (printing : Bool) (app : String) (upd : Option DeployB)
    (reqId : Nat) (ch : CommandHelper) : UpdateReqResult :=
  if printing then
    { outcome := Except.error "Update Refused: Klippy is printing"
      ch := ch, events := [], calls := [] }
  else if chIsAppUpdating app ch then
    { outcome := Except.ok ("Object " ++ app ++ " is currently being updated")
      ch := ch, events := [], calls := [] }
  else
    match upd with
    | none =>
      { outcome := Except.error ("Updater " ++ app ++ " not available")
        ch := ch, events := [], calls := [] }
    | some d =>
      let ch1 := chSetUpdateInfo app reqId ch
      match d.updateOutcome with
      | Except.ok _ =>
        let ch2 := if d.addsRestart then chAddPendingRestart app ch1 else ch1
        { outcome := Except.ok "ok", ch := chClearUpdateInfo ch2
          events := [], calls := [app] }
      | Except.error e =>
        let evs := notifyUpdateResponse ch1 ("Error updating " ++ app ++ ": " ++ e) true
        { outcome := Except.error e, ch := chClearUpdateInfo ch1
          events := evs, calls := [app] }

/-! Package provider selection (PackageDeploy, lines 671-720). -/

/-- The three provider shapes PackageDeploy can end up with. -/
inductive PkgProvider
  | packagekit
  | aptCli
  | baseProvider
deriving DecidableEq, Repr

/-- Provider selection of PackageDeploy at startup.  usePackagekit is
the enable_packagekit option; pkInitOk whether constructing plus
starting the PackageKitProvider succeeded (bus and permission checks,
external); aptProbeOk whether the command probe for apt succeeded
(AptCliProvider inherits the no-op base start, which cannot fail).
Returns the provider installed and the warning added, if any. -/
def pkgDeploySelectProvider (usePackagekit pkInitOk aptProbeOk : Bool)
    (distId : String) : PkgProvider × Option String :=
  let tryFallback := !(usePackagekit && pkInitOk)
  if tryFallback then
    if aptProbeOk then (PkgProvider.aptCli, none)
    else
      (PkgProvider.baseProvider,
       some ("Unable to initialize System Update Provider for distribution: "
             ++ distId))
  else (PkgProvider.packagekit, none)

/-! PackageKit transaction (class PackageKitTransaction).  The vendored
flag enums (thirdparty/packagekit/enums.py) are not under src; the roles
and the query-role sets are modelled from the spec. -/

/-- Modelled from the spec: the transaction roles the component
distinguishes (resolve, get-packages, get-updates, get-repo-list are the
query roles; the others are mutating roles). -/
inductive PkRole
  | unknownRole
  | resolve
  | getPackages
  | getUpdates
  | getRepoList
  | installPkgs
  | updatePkgs
  | refreshCache
deriving DecidableEq, Repr

/-- Modelled from the spec: human-readable role descriptions from the
vendored enum table; only their identity matters here. -/
def roleDesc (r : PkRole) : String :=
  match r with
  | PkRole.unknownRole => "Unknown"
  | PkRole.resolve => "Resolve"
  | PkRole.getPackages => "Get Packages"
  | PkRole.getUpdates => "Get Updates"
  | PkRole.getRepoList => "Get Repo List"
  | PkRole.installPkgs => "Install Packages"
  | PkRole.updatePkgs => "Update Packages"
  | PkRole.refreshCache => "Refresh Cache"

/-- PackageKitTransaction.GET_PKG_ROLES membership (lines 931-934): the
flag union of RESOLVE, GET_PACKAGES and GET_UPDATES. -/
def inGetPkgRoles (r : PkRole) : Bool :=
  r = PkRole.resolve || r = PkRole.getPackages || r = PkRole.getUpdates

/-- PackageKitTransaction.QUERY_ROLES membership (line 935): the package
query roles plus GET_REPO_LIST. -/
def inQueryRoles (r : PkRole) : Bool :=
  inGetPkgRoles r || r = PkRole.getRepoList

/-- Package info delivered with a package signal: whether it equals the
FINISHED info code, and its description text. -/
structure PkInfo where
  isFinishedInfo : Bool
  desc : String
deriving DecidableEq, Repr

/-- Structured record accumulated by _on_package_signal. -/
structure PkgData where
  packageId : String
  infoDesc : String
  summary : String
deriving DecidableEq, Repr

/-- Structured record accumulated by _on_repo_detail_signal. -/
structure RepoData where
  repoId : String
  description : String
  enabled : Bool
deriving DecidableEq, Repr

/-- Items of the transaction result list (python appends plain dicts of
either shape). -/
inductive PkResultItem
  | pkgItem (p : PkgData)
  | repoItem (r : RepoData)
deriving DecidableEq, Repr

/-- PackageKitTransaction state: the notify flag, the current role, the
single-settlement future (none = not created, some none = created and
pending, some (some o) = settled with outcome o), the accumulated result
list and the stored error text. -/
structure PKTransaction where
  notify : Bool := false
  role : PkRole := PkRole.unknownRole
  tfut : Option (Option (Except String (List PkResultItem))) := none
  result : List PkResultItem := []
  errMsg : String := ""
deriving DecidableEq, Repr

/-- PackageKitTransaction.run (lines 970-982): creates the future and
starts the call; invoking it again on the same object raises. -/
def pkRun (t : PKTransaction) (nfy : Bool) : Except String PKTransaction :=
  match t.tfut with
  | some _ => Except.error "PackageKit transaction can only be used once"
  | none => Except.ok { t with notify := nfy, tfut := some none }

/-- PackageKitTransaction._on_error_signal (lines 1059-1064). -/
def pkOnErrorSignal (t : PKTransaction) (errName details : String) : PKTransaction :=
  { t with errMsg := errName ++ ": " ++ details }

/-- PackageKitTransaction._on_finished_signal (lines 1066-1081):
settles the future (success with the result list, failure with the
stored error text or the exit description) and emits the final line
when notification is on.  The elapsed-seconds text of the real line is
elided (floating point formatting, not claimed). -/
def pkOnFinished (t : PKTransaction) (exitSuccess : Bool) (extDesc : String) :
    PKTransaction × List String :=
  match t.tfut with
  | none => (t, [])
  | some _ =>
    let t1 :=
      if exitSuccess then { t with tfut := some (some (Except.ok t.result)) }
      else
        let err := if t.errMsg = "" then extDesc else t.errMsg
        { t with tfut := some (some (Except.error err)) }
    let msg := "Transaction " ++ roleDesc t.role ++ ": Exit " ++ extDesc
    (t1, if t.notify then [msg] else [])

/-- PackageKitTransaction role property setter (lines 1132-1141):
setting a query role permanently disables notification; otherwise a
start line is emitted when notification is on. -/
def pkSetRole (t : PKTransaction) (r : PkRole) : PKTransaction × List String :=
  let t1 := { t with role := r }
  let t2 := if inQueryRoles r then { t1 with notify := false } else t1
  (t2, if t2.notify then ["Transaction " ++ roleDesc r ++ " started..."] else [])

/-- PackageKitTransaction._notify_package (lines 1092-1098): a progress
line for a package signal outside the package query roles (package ids
carry the name;version;arch;data shape, read positionally). -/
def pkNotifyPackage (t : PKTransaction) (info : PkInfo) (packageId : String) :
    List String :=
  if t.notify then
    if info.isFinishedInfo then []
    else
      let parts := pySplit packageId ';'
      [info.desc ++ ": " ++ parts.headD "" ++ " (" ++ parts.getD 1 "" ++ ")"]
  else []

/-- PackageKitTransaction._notify_repo (lines 1100-1106). -/
def pkNotifyRepo (t : PKTransaction) (repoId description : String) : List String :=
  if t.notify then
    let rid := if pyStrip repoId = "" then description else repoId
    ["GET: " ++ rid]
  else []

/-- PackageKitTransaction._on_package_signal (lines 1013-1027): under a
package query role the record is accumulated, otherwise the signal is
narrated; returns the new state and the notification lines sent. -/
def pkOnPackageSignal (t : PKTransaction) (info : PkInfo)
    (packageId summary : String) : PKTransaction × List String :=
  if inGetPkgRoles t.role then
    ({ t with result := t.result ++
        [PkResultItem.pkgItem
          { packageId := packageId, infoDesc := info.desc, summary := summary }] },
     [])
  else
    (t, pkNotifyPackage t info packageId)

/-- PackageKitTransaction._on_repo_detail_signal (lines 1029-1042):
under the repo-list query role the record is accumulated, otherwise the
signal is narrated. -/
def pkOnRepoDetailSignal (t : PKTransaction) (repoId description : String)
    (enabled : Bool) : PKTransaction × List String :=
  if t.role = PkRole.getRepoList then
    ({ t with result := t.result ++
        [PkResultItem.repoItem
          { repoId := repoId, description := description, enabled := enabled }] },
     [])
  else
    (t, pkNotifyRepo t repoId description)

/-! Status request refresh suppression
(UpdateManager._handle_status_request, lines 360-409). -/

/-- Modelled from the spec: BaseDeploy keeps a last_refresh_time per
deployment (base_deploy.py is not under src) and refresh() updates it to
the current time on the success path.  A deployment is reduced to that
time here. -/
def refreshDeploy (now : Int) (_lrt : Int) : Int := now

/-- The python max over all get_last_refresh_time values (line 384; the
updater map is nonempty in practice, the constructor always registers
moonraker and klipper). -/
def maxLrt (us : List (String × Int)) : Int :=
  match us with
  | [] => 0
  | [(_, v)] => v
  | (_, v) :: rest => max v (maxLrt rest)

/-- UpdateManager._handle_status_request reduced to its refresh
decision: checkRefresh is the refresh query argument, busyOverride the
disjunction of the conditions that silently downgrade it (validation
pending, update busy, printing, initial refresh incomplete), now the
current time.  Returns the final per-deployment refresh times (the
state the returned snapshot is read from) and whether the
per-deployment refresh pass ran. -/
def handleStatusRequest (checkRefresh busyOverride : Bool) (now : Int)
    (us : List (String × Int)) : List (String × Int) × Bool :=
  let cr := checkRefresh && !busyOverride
  if cr then
    let lrt := maxLrt us
    if now < lrt + 60 then (us, false)
    else (us.map (fun p => (p.1, refreshDeploy now p.2)), true)
  else (us, false)

/-! APT package list parsing (AptCliProvider.get_packages, lines
809-816). -/

/-- Text left of the first slash separator: the python split with
maxsplit one, first component. -/
def aptLeftOfSlash (p : String) : String := (pySplit p '/').headD p

/-- AptCliProvider.get_packages parsing of the apt list output: strip
each line, drop blanks, skip the two header lines, keep the package
name left of the first slash. -/
def aptParsePackages (res : String) : List String :=
  let pkgList := ((pySplit res '\n').map pyStrip).filter (fun p => ¬(p = ""))
  if ¬(pkgList = []) then (pkgList.drop 2).map aptLeftOfSlash
  else []

/-! Web client durable state (WebClientDeploy.get_persistent_data lines
1415-1423, WebClientDeploy.initialize lines 1303-1325). -/

/-- Durable fields of a WebClientDeploy. -/
structure WebClientState where
  version : String
  remoteVersion : String
  rollbackVersion : String
  rollbackRepo : String
  lastError : String
  dlInfo : String × String × Nat
deriving DecidableEq, Repr

/-- Persisted key set written by WebClientDeploy.get_persistent_data.
The base keys from BaseDeploy.get_persistent_data are modelled from the
spec as an opaque passthrough and omitted: the claim names only the
fields written here.  A missing key reads as none. -/
structure WebClientStorage where
  version : Option String := none
  remoteVersion : Option String := none
  rollbackVersion : Option String := none
  rollbackRepo : Option String := none
  lastError : Option String := none
  dlInfo : Option (String × String × Nat) := none
deriving DecidableEq, Repr

/-- WebClientDeploy.get_persistent_data: every durable field is written. -/
def webClientGetPersistentData (s : WebClientState) : WebClientStorage :=
  { version := some s.version
    remoteVersion := some s.remoteVersion
    rollbackVersion := some s.rollbackVersion
    rollbackRepo := some s.rollbackRepo
    lastError := some s.lastError
    dlInfo := some s.dlInfo }

/-- WebClientDeploy.initialize, the durable-state loading part.
Modelled from the spec where it leaves this file: the self argument of
super() returns the dict previously persisted for this deployment
(BaseDeploy loads persisted fields from durable storage; base_deploy.py
is not under src).  postValidateVersion is self.version after
_validate_client_info ran (the fresh-constructor value is the question
mark when no local version marker exists); valid and repo are likewise
the fields that validation left behind. -/
def webClientInitState (st : WebClientStorage) (postValidateVersion : String)
    (valid : Bool) (repo : String) : WebClientState :=
  let version :=
    if postValidateVersion = "?" then st.version.getD "?" else postValidateVersion
  { version := version
    remoteVersion := st.remoteVersion.getD "?"
    rollbackVersion := st.rollbackVersion.getD version
    rollbackRepo := st.rollbackRepo.getD (if valid then repo else "?")
    lastError := st.lastError.getD ""
    dlInfo := st.dlInfo.getD ("?", "?", 0) }

/-! Theorems. -/

/-- C3: for a Release-Archive-Client deployment, the persisted state
written by get_persistent_data() and then reloaded through initialize()
reproduces identical version, rollback_version, rollback_repo and
last_error fields, whatever state the filesystem validation step leaves
in the other fields. -/
theorem webclient_persist_roundtrip (s : WebClientState) (valid : Bool)
    (repo : String) :
    (webClientInitState (webClientGetPersistentData s) "?" valid repo).version
      = s.version ∧
    (webClientInitState (webClientGetPersistentData s) "?" valid repo).rollbackVersion
      = s.rollbackVersion ∧
    (webClientInitState (webClientGetPersistentData s) "?" valid repo).rollbackRepo
      = s.rollbackRepo ∧
    (webClientInitState (webClientGetPersistentData s) "?" valid repo).lastError
      = s.lastError := by
  simp [webClientInitState, webClientGetPersistentData]

/-- C5: provider selection at PackageDeploy startup: an enabled and
successful PackageKit attempt wins without a warning; otherwise a
successful apt probe yields the CLI provider without a warning; only
when both fail is the base provider installed together with the warning
naming the detected distribution. -/
theorem package_provider_selection (upk pk apt : Bool) (distId : String) :
    (upk = true → pk = true →
      pkgDeploySelectProvider upk pk apt distId = (PkgProvider.packagekit, none)) ∧
    ((upk = false ∨ pk = false) → apt = true →
      pkgDeploySelectProvider upk pk apt distId = (PkgProvider.aptCli, none)) ∧
    ((upk = false ∨ pk = false) → apt = false →
      pkgDeploySelectProvider upk pk apt distId =
        (PkgProvider.baseProvider,
         some ("Unable to initialize System Update Provider for distribution: "
               ++ distId))) := by
  cases upk <;> cases pk <;> cases apt <;> simp [pkgDeploySelectProvider]

/-- C5 witness: with PackageKit failing and the apt probe succeeding the
CLI provider is selected and no warning is emitted. -/
theorem package_provider_selection_witness :
    pkgDeploySelectProvider false true true "debian" = (PkgProvider.aptCli, none) :=
  (package_provider_selection false true true "debian").2.1 (Or.inl rfl) rfl

/-- C9: get_packages parses the apt list output by skipping the fixed
two-line header and keeping, per remaining line, the text left of the
first slash; in particular the curl example yields exactly that package
name. -/
theorem apt_get_packages_parsing :
    (∀ res : String,
      aptParsePackages res =
        ((((pySplit res '\n').map pyStrip).filter (fun p => ¬(p = ""))).drop 2).map
          aptLeftOfSlash) ∧
    aptParsePackages
        "Listing... Done\nSecond header line\ncurl/stable 7.81 amd64 [upgradable from: 7.80]\n"
      = ["curl"] := by
  constructor
  · intro res
    unfold aptParsePackages
    by_cases h : (((pySplit res '\n').map pyStrip).filter (fun p => ¬(p = ""))) = []
    · rw [if_neg (not_not_intro h), h]
      rfl
    · rw [if_pos h]
  · decide

/-- C10: notify_update_response emits nothing when no update session is
active (the current update target is unset), in particular right after
clear_update_info; no state is mutated by the call. -/
theorem notify_response_outside_session (ch : CommandHelper) (resp : String)
    (isComplete : Bool) (h : ch.curUpdateApp = none) :
    notifyUpdateResponse ch resp isComplete = [] ∧
    notifyUpdateResponse (chClearUpdateInfo ch) resp isComplete = [] := by
  constructor
  · unfold notifyUpdateResponse
    rw [h]
  · simp [notifyUpdateResponse, chClearUpdateInfo]

/-- C10 witness: a fresh CommandHelper has no active session and the
call emits nothing. -/
theorem notify_response_outside_session_witness :
    notifyUpdateResponse {} "hello" true = [] ∧
    notifyUpdateResponse (chClearUpdateInfo {}) "hello" true = [] :=
  notify_response_outside_session {} "hello" true rfl

/-- C6: a PackageKit Transaction object is single-use: the first run()
starts it, and a second run() on the same object, already started or
finished, raises instead of re-running. -/
theorem transaction_single_use (t : PKTransaction) (h : t.tfut = none)
    (n1 n2 n3 exitSuccess : Bool) (extDesc : String) :
    pkRun t n1 = Except.ok { t with notify := n1, tfut := some none } ∧
    ({ t with notify := n1, tfut := some none } : PKTransaction).tfut.isSome = true ∧
    pkRun { t with notify := n1, tfut := some none } n2 =
      Except.error "PackageKit transaction can only be used once" ∧
    pkRun (pkOnFinished { t with notify := n1, tfut := some none } exitSuccess extDesc).1 n3 =
      Except.error "PackageKit transaction can only be used once" := by
  refine ⟨?_, rfl, rfl, ?_⟩
  · unfold pkRun
    rw [h]
  · unfold pkOnFinished pkRun
    cases exitSuccess <;> simp

/-- C6 witness: a fresh transaction runs once and every later run on the
same object raises, also after the finished signal. -/
theorem transaction_single_use_witness :
    pkRun {} true = Except.ok { notify := true, tfut := some none } ∧
    ({ notify := true, tfut := some none } : PKTransaction).tfut.isSome = true ∧
    pkRun { notify := true, tfut := some none } false =
      Except.error "PackageKit transaction can only be used once" ∧
    pkRun (pkOnFinished { notify := true, tfut := some none } true "Success").1 false =
      Except.error "PackageKit transaction can only be used once" :=
  transaction_single_use {} rfl true false false true "Success"

/-- C7 counterexample: a transaction started with notification
requested whose role property is then set to the query role
get-repo-list receives a package-found item-discovery signal; contrary
to the claim, the structured record is not accumulated into the result
list (and no notification line is emitted either): package signals
accumulate only under the three package query roles. -/
theorem package_signal_query_role_counterexample :
    (let t1 : PKTransaction := { notify := true, tfut := some none }
     let t2 := (pkSetRole t1 PkRole.getRepoList).1
     pkRun {} true = Except.ok t1 ∧
     inQueryRoles t2.role = true ∧
     (pkOnPackageSignal t2 { isFinishedInfo := false, desc := "Installing" }
        "curl;7.81;amd64;debian" "a summary").1.result = [] ∧
     (pkOnPackageSignal t2 { isFinishedInfo := false, desc := "Installing" }
        "curl;7.81;amd64;debian" "a summary").2 = []) := by
  decide

/-- C7 amended: a package-found signal accumulates its structured
record exactly when the active role is one of the package query roles
(resolve, get-packages, get-updates), a repository-detail signal
exactly when the active role is get-repo-list; a signal that does not
accumulate emits a notification line only when notification is enabled
(and, for package signals, the info is not the finished marker); no
signal both accumulates and notifies. -/
theorem item_signal_accumulate_or_notify (t : PKTransaction) (info : PkInfo)
    (pid summ rid rdesc : String) (en : Bool) :
    ((pkOnPackageSignal t info pid summ).1.result =
       (if inGetPkgRoles t.role then
          t.result ++ [PkResultItem.pkgItem
            { packageId := pid, infoDesc := info.desc, summary := summ }]
        else t.result)) ∧
    ((pkOnPackageSignal t info pid summ).2 ≠ [] →
       inGetPkgRoles t.role = false ∧ t.notify = true ∧
       info.isFinishedInfo = false) ∧
    (¬((pkOnPackageSignal t info pid summ).1.result ≠ t.result ∧
       (pkOnPackageSignal t info pid summ).2 ≠ [])) ∧
    ((pkOnRepoDetailSignal t rid rdesc en).1.result =
       (if t.role = PkRole.getRepoList then
          t.result ++ [PkResultItem.repoItem
            { repoId := rid, description := rdesc, enabled := en }]
        else t.result)) ∧
    ((pkOnRepoDetailSignal t rid rdesc en).2 ≠ [] →
       ¬(t.role = PkRole.getRepoList) ∧ t.notify = true) ∧
    (¬((pkOnRepoDetailSignal t rid rdesc en).1.result ≠ t.result ∧
       (pkOnRepoDetailSignal t rid rdesc en).2 ≠ [])) := by
  unfold pkOnPackageSignal pkOnRepoDetailSignal pkNotifyPackage pkNotifyRepo
  by_cases hg : inGetPkgRoles t.role = true
  · by_cases hr : t.role = PkRole.getRepoList
    · cases t.role <;> simp_all [inGetPkgRoles]
    · cases hn : t.notify <;> simp_all
  · by_cases hr : t.role = PkRole.getRepoList
    · simp_all
    · cases hn : t.notify <;> cases hf : info.isFinishedInfo <;> simp_all

/-- C7 amended witness: under a mutating role with notification enabled
a package signal emits a line and does not accumulate. -/
theorem item_signal_accumulate_or_notify_witness :
    inGetPkgRoles ({ role := PkRole.installPkgs, notify := true } : PKTransaction).role
        = false ∧
    ({ role := PkRole.installPkgs, notify := true } : PKTransaction).notify = true ∧
    ({ isFinishedInfo := false, desc := "Installing" } : PkInfo).isFinishedInfo
        = false :=
  (item_signal_accumulate_or_notify
    { role := PkRole.installPkgs, notify := true }
    { isFinishedInfo := false, desc := "Installing" }
    "curl;7.81;amd64;debian" "a summary" "repo-id" "repo-desc" true).2.1
    (by decide)

/-- After the refresh pass sets every last-refresh time to the call
time, the maximum over a nonempty map equals that time. -/
theorem maxLrt_map_const (us : List (String × Int)) (c : Int) (h : us ≠ []) :
    maxLrt (us.map (fun p => (p.1, c))) = c := by
  induction us with
  | nil => exact absurd rfl h
  | cons x rest ih =>
    cases rest with
    | nil => simp [maxLrt]
    | cons y t =>
      have h2 := ih (by simp)
      simp only [List.map_cons] at h2 ⊢
      rw [maxLrt, h2, max_self]
      simp

/-- C8: a forced status refresh issued while the most recent refresh
across all deployments is under 60 seconds old is suppressed, returning
the cached per-deployment state; hence two forced-refresh status
requests within 60 seconds of each other run the underlying refresh
pass at most once. -/
theorem status_refresh_antispam (us : List (String × Int)) (now t1 t2 : Int)
    (hne : us ≠ []) :
    (now < maxLrt us + 60 → handleStatusRequest true false now us = (us, false)) ∧
    (t2 < t1 + 60 →
      ¬((handleStatusRequest true false t1 us).2 = true ∧
        (handleStatusRequest true false t2
          (handleStatusRequest true false t1 us).1).2 = true)) := by
  constructor
  · intro hlt
    unfold handleStatusRequest
    simp [hlt]
  · intro hwin
    by_cases h1 : t1 < maxLrt us + 60
    · unfold handleStatusRequest
      simp [h1]
    · have hfst : handleStatusRequest true false t1 us =
          (us.map (fun p => (p.1, t1)), true) := by
        unfold handleStatusRequest
        simp [h1, refreshDeploy]
      rw [hfst]
      have hmax : maxLrt (us.map (fun p => (p.1, t1))) = t1 :=
        maxLrt_map_const us t1 hne
      intro hc
      have h2 := hc.2
      unfold handleStatusRequest at h2
      rw [hmax] at h2
      simp [hwin] at h2

/-- C8 witness: with both deployments last refreshed at time 0, a
forced refresh at time 30 is suppressed, and forced refreshes at times
100 and 130 run the underlying refresh pass at most once. -/
theorem status_refresh_antispam_witness :
    (handleStatusRequest true false 30 [("moonraker", 0), ("klipper", 0)]
      = ([("moonraker", 0), ("klipper", 0)], false)) ∧
    ¬((handleStatusRequest true false 100 [("moonraker", 0), ("klipper", 0)]).2 = true ∧
      (handleStatusRequest true false 130
        (handleStatusRequest true false 100 [("moonraker", 0), ("klipper", 0)]).1).2
          = true) :=
  ⟨(status_refresh_antispam [("moonraker", 0), ("klipper", 0)] 30 100 130
      (by decide)).1 (by decide),
   (status_refresh_antispam [("moonraker", 0), ("klipper", 0)] 30 100 130
      (by decide)).2 (by decide)⟩

/-- C4: a single-target update request whose update() raises notifies
observers with a message carrying the target name and the causing
error, marked complete, re-raises the same exception, and clears the
session state on exit; a request whose target is already the active
operation is answered with the already-updating response without
performing an update. -/
theorem update_request_error_handling (app : String) (d : DeployB) (e : String)
    (reqId : Nat) (ch : CommandHelper) (happ : app ≠ "full")
    (hfail : d.updateOutcome = Except.error e) :
    (ch.curUpdateApp = some app →
      handleUpdateRequest false app (some d) reqId ch =
        { outcome := Except.ok ("Object " ++ app ++ " is currently being updated")
          ch := ch, events := [], calls := [] }) ∧
    (ch.curUpdateApp ≠ some app →
      (handleUpdateRequest false app (some d) reqId ch).outcome = Except.error e ∧
      (handleUpdateRequest false app (some d) reqId ch).events =
        [{ message := pyStrip ("Error updating " ++ app ++ ": " ++ e)
           application := app, procId := some reqId, complete := true }] ∧
      (handleUpdateRequest false app (some d) reqId ch).calls = [app] ∧
      (handleUpdateRequest false app (some d) reqId ch).ch.curUpdateApp = none ∧
      (handleUpdateRequest false app (some d) reqId ch).ch.curUpdateId = none) := by
  constructor
  · intro h
    unfold handleUpdateRequest chIsAppUpdating
    simp [h]
  · intro h
    unfold handleUpdateRequest chIsAppUpdating
    simp [h, hfail, chSetUpdateInfo, chClearUpdateInfo, notifyUpdateResponse, happ]

/-- C4 witness: a failing klipper update on an idle helper re-raises,
notifies completely and clears the session. -/
theorem update_request_error_handling_witness :
    (handleUpdateRequest false "klipper"
        (some { updateOutcome := Except.error "boom" }) 7 {}).outcome
      = Except.error "boom" ∧
    (handleUpdateRequest false "klipper"
        (some { updateOutcome := Except.error "boom" }) 7 {}).events =
      [{ message := pyStrip ("Error updating " ++ "klipper" ++ ": " ++ "boom")
         application := "klipper", procId := some 7, complete := true }] ∧
    (handleUpdateRequest false "klipper"
        (some { updateOutcome := Except.error "boom" }) 7 {}).calls = ["klipper"] ∧
    (handleUpdateRequest false "klipper"
        (some { updateOutcome := Except.error "boom" }) 7 {}).ch.curUpdateApp = none ∧
    (handleUpdateRequest false "klipper"
        (some { updateOutcome := Except.error "boom" }) 7 {}).ch.curUpdateId = none :=
  (update_request_error_handling "klipper" { updateOutcome := Except.error "boom" }
    "boom" 7 {} (by decide) rfl).2 (by decide)

/-- The first failure of a concatenation is the first failure of the
left part, else that of the right part. -/
theorem firstFailure_append (a b : List (String × DeployB)) :
    firstFailure (a ++ b) =
      (match firstFailure a with
       | some x => some x
       | none => firstFailure b) := by
  induction a with
  | nil => simp [firstFailure]
  | cons p rest ih =>
    obtain ⟨n, d⟩ := p
    cases hd : d.updateOutcome <;> simp [firstFailure, hd, ih]

/-- Gated execution over a concatenation stops in the left part when it
fails there, otherwise continues into the right part. -/
theorem phasesRun_append (a b : List (String × DeployB)) :
    phasesRun (a ++ b) =
      (match firstFailure a with
       | some _ => phasesRun a
       | none => phasesRun a ++ phasesRun b) := by
  induction a with
  | nil => simp [phasesRun, firstFailure]
  | cons p rest ih =>
    obtain ⟨n, d⟩ := p
    cases hd : d.updateOutcome with
    | ok v =>
      cases hf : firstFailure rest <;>
        simp [phasesRun, firstFailure, hd, hf, ih]
    | error e => simp [phasesRun, firstFailure, hd]

/-- With no failing phase, every phase runs, in order. -/
theorem phasesRun_of_ok (l : List (String × DeployB))
    (h : firstFailure l = none) : phasesRun l = l.map Prod.fst := by
  induction l with
  | nil => rfl
  | cons p rest ih =>
    obtain ⟨n, d⟩ := p
    cases hd : d.updateOutcome with
    | ok v =>
      simp only [firstFailure, hd] at h
      simp [phasesRun, hd, ih h]
    | error e => simp [firstFailure, hd] at h

/-- A list of phases whose updates all succeed has no first failure. -/
theorem firstFailure_eq_none (l : List (String × DeployB))
    (h : ∀ p ∈ l, ∃ b, p.2.updateOutcome = Except.ok b) :
    firstFailure l = none := by
  induction l with
  | nil => rfl
  | cons p rest ih =>
    obtain ⟨n, d⟩ := p
    obtain ⟨b, hb⟩ := h (n, d) (List.mem_cons_self _ _)
    have h2 : firstFailure rest = none :=
      ih (fun q hq => h q (List.mem_cons_of_mem _ hq))
    have hb2 : d.updateOutcome = Except.ok b := hb
    simp [firstFailure, hb2, h2]

/-- A successful update call leaves the pair of the updated context and
the returned bool. -/
theorem attemptUpdate_ok (n : String) (d : DeployB) (s : FullSt) (b : Bool)
    (hd : d.updateOutcome = Except.ok b) :
    attemptUpdate n d s =
      (if d.addsRestart then
        { s with calls := s.calls ++ [n], ch := chAddPendingRestart n s.ch }
       else { s with calls := s.calls ++ [n] }, Except.ok b) := by
  unfold attemptUpdate
  rw [hd]

/-- A failing update call records the attempt and raises. -/
theorem attemptUpdate_error (n : String) (d : DeployB) (s : FullSt) (e : String)
    (hd : d.updateOutcome = Except.error e) :
    attemptUpdate n d s = ({ s with calls := s.calls ++ [n] }, Except.error e) := by
  unfold attemptUpdate
  rw [hd]

/-- Sequencing two phase functions that satisfy their contracts yields
the contract of the concatenated phase lists. -/
theorem PhaseSpec_comp (f g : FullSt → FullSt × Option String)
    (pl ql : List (String × DeployB))
    (hf : PhaseSpec f pl) (hg : PhaseSpec g ql) :
    PhaseSpec (fun s => andThenPhase (f s) g) (pl ++ ql) := by
  intro s
  have hf1 := hf s
  cases hfs : f s with
  | mk s1 err =>
    rw [hfs] at hf1
    obtain ⟨hc, ha, hi, hu, hcmp, hev, herr⟩ := hf1
    have hc2 : s1.calls = s.calls ++ phasesRun pl := hc
    have ha2 : s1.ch.curUpdateApp = s.ch.curUpdateApp := ha
    have hi2 : s1.ch.curUpdateId = s.ch.curUpdateId := hi
    have hu2 : s1.ch.fullUpdate = s.ch.fullUpdate := hu
    have hcmp2 : s1.ch.fullComplete = s.ch.fullComplete := hcmp
    obtain ⟨tl, he⟩ := hev
    have he2 : s1.events = s.events ++ tl := he
    cases hff : firstFailure pl with
    | some x =>
      obtain ⟨n, e⟩ := x
      rw [hff] at herr
      obtain ⟨herrE, herrN⟩ := (show err = some e ∧ s1.appName = n from herr)
      subst herrE
      have hfb : firstFailure (pl ++ ql) = some (n, e) := by
        rw [firstFailure_append, hff]
      have hpb : phasesRun (pl ++ ql) = phasesRun pl := by
        rw [phasesRun_append, hff]
      have hres : andThenPhase (f s) g = (s1, some e) := by
        rw [hfs]
        rfl
      refine ⟨?_, ?_, ?_, ?_, ?_, ?_, ?_⟩
      · show (andThenPhase (f s) g).1.calls = s.calls ++ phasesRun (pl ++ ql)
        rw [hres, hpb]
        exact hc2
      · show (andThenPhase (f s) g).1.ch.curUpdateApp = s.ch.curUpdateApp
        rw [hres]
        exact ha2
      · show (andThenPhase (f s) g).1.ch.curUpdateId = s.ch.curUpdateId
        rw [hres]
        exact hi2
      · show (andThenPhase (f s) g).1.ch.fullUpdate = s.ch.fullUpdate
        rw [hres]
        exact hu2
      · show (andThenPhase (f s) g).1.ch.fullComplete = s.ch.fullComplete
        rw [hres]
        exact hcmp2
      · show ∃ tl2, (andThenPhase (f s) g).1.events = s.events ++ tl2
        refine ⟨tl, ?_⟩
        rw [hres]
        exact he2
      · show (match firstFailure (pl ++ ql) with
          | none => (andThenPhase (f s) g).2 = none
          | some (n2, e2) =>
            (andThenPhase (f s) g).2 = some e2 ∧
            (andThenPhase (f s) g).1.appName = n2)
        rw [hfb, hres]
        exact ⟨rfl, herrN⟩
    | none =>
      rw [hff] at herr
      have herrE : err = none := herr
      subst herrE
      have hfb : firstFailure (pl ++ ql) = firstFailure ql := by
        rw [firstFailure_append, hff]
      have hpb : phasesRun (pl ++ ql) = phasesRun pl ++ phasesRun ql := by
        rw [phasesRun_append, hff]
      have hres : andThenPhase (f s) g = g s1 := by
        rw [hfs]
        rfl
      have hg1 := hg s1
      obtain ⟨gc, ga, gi, gu, gcmp, gev, gerr⟩ := hg1
      obtain ⟨tl2, ge⟩ := gev
      refine ⟨?_, ?_, ?_, ?_, ?_, ?_, ?_⟩
      · show (andThenPhase (f s) g).1.calls = s.calls ++ phasesRun (pl ++ ql)
        rw [hres, hpb, gc, hc2, List.append_assoc]
      · show (andThenPhase (f s) g).1.ch.curUpdateApp = s.ch.curUpdateApp
        rw [hres, ga, ha2]
      · show (andThenPhase (f s) g).1.ch.curUpdateId = s.ch.curUpdateId
        rw [hres, gi, hi2]
      · show (andThenPhase (f s) g).1.ch.fullUpdate = s.ch.fullUpdate
        rw [hres, gu, hu2]
      · show (andThenPhase (f s) g).1.ch.fullComplete = s.ch.fullComplete
        rw [hres, gcmp, hcmp2]
      · show ∃ tl3, (andThenPhase (f s) g).1.events = s.events ++ tl3
        refine ⟨tl ++ tl2, ?_⟩
        rw [hres, ge, he2, List.append_assoc]
      · show (match firstFailure (pl ++ ql) with
          | none => (andThenPhase (f s) g).2 = none
          | some (n2, e2) =>
            (andThenPhase (f s) g).2 = some e2 ∧
            (andThenPhase (f s) g).1.appName = n2)
        rw [hfb, hres]
        exact gerr

/-- The phase contract transfers along pointwise equal phase functions. -/
theorem PhaseSpec_congr (f g : FullSt → FullSt × Option String)
    (pl : List (String × DeployB)) (h : ∀ s, f s = g s)
    (hg : PhaseSpec g pl) : PhaseSpec f pl := by
  intro s
  have hgs := hg s
  rw [← h s] at hgs
  exact hgs

/-- A phase that only possibly sets app_name and performs no update
satisfies the empty contract. -/
theorem PhaseSpec_skip (f : FullSt → FullSt × Option String)
    (h : ∀ s : FullSt, ∃ a, f s = ({ s with appName := a }, none)) :
    PhaseSpec f [] := by
  intro s
  obtain ⟨a, ha⟩ := h s
  refine ⟨?_, ?_, ?_, ?_, ?_, ⟨[], ?_⟩, ?_⟩
  · rw [ha]
    simp [phasesRun]
  · rw [ha]
  · rw [ha]
  · rw [ha]
  · rw [ha]
  · rw [ha]
    simp
  · simp only [firstFailure]
    rw [ha]

/-- The isolated single phase satisfies the contract of its singleton
phase list. -/
theorem onePhase_spec (n : String) (d : DeployB) :
    PhaseSpec (onePhase n d) [(n, d)] := by
  intro s
  simp only [onePhase]
  cases hd : d.updateOutcome with
  | ok b =>
    rw [attemptUpdate_ok n d _ b hd]
    by_cases har : d.addsRestart = true
    · rw [if_pos har]
      refine ⟨?_, rfl, rfl, rfl, rfl, ⟨[], by simp⟩, ?_⟩
      · simp [phasesRun, hd]
      · simp only [firstFailure, hd]
    · rw [if_neg har]
      refine ⟨?_, rfl, rfl, rfl, rfl, ⟨[], by simp⟩, ?_⟩
      · simp [phasesRun, hd]
      · simp only [firstFailure, hd]
  | error e =>
    rw [attemptUpdate_error n d _ e hd]
    refine ⟨?_, rfl, rfl, rfl, rfl, ⟨[], by simp⟩, ?_⟩
    · simp [phasesRun, hd]
    · simp [firstFailure, hd]

/-- The system phase satisfies the contract of the Packages part. -/
theorem systemPhase_spec (us : List (String × DeployB)) :
    PhaseSpec (systemPhase us) (sysPart us) := by
  cases hl : alookup us "system" with
  | none =>
    have hp : sysPart us = [] := by
      unfold sysPart
      rw [hl]
    rw [hp]
    apply PhaseSpec_skip
    intro s
    refine ⟨s.appName, ?_⟩
    simp only [systemPhase]
    rw [hl]
  | some d =>
    have hp : sysPart us = [("system", d)] := by
      unfold sysPart
      rw [hl]
    rw [hp]
    apply PhaseSpec_congr _ (onePhase "system" d) _ _ (onePhase_spec "system" d)
    intro s
    simp only [systemPhase, onePhase]
    rw [hl]

/-- The client loop satisfies the contract of the clients part. -/
theorem clientLoop_spec (l : List (String × DeployB)) :
    PhaseSpec (clientLoop l) (clientsPart l) := by
  induction l with
  | nil =>
    have hp : clientsPart [] = [] := rfl
    rw [hp]
    apply PhaseSpec_skip
    intro s
    exact ⟨s.appName, rfl⟩
  | cons p rest ih =>
    obtain ⟨n, d⟩ := p
    by_cases hskip : n = "klipper" ∨ n = "moonraker" ∨ n = "system"
    · have h1 : ∀ s, clientLoop ((n, d) :: rest) s = clientLoop rest s := by
        intro s
        simp only [clientLoop]
        rw [if_pos hskip]
      have h2 : clientsPart ((n, d) :: rest) = clientsPart rest := by
        simp [clientsPart, List.filter_cons, hskip]
        tauto
      rw [h2]
      exact PhaseSpec_congr _ _ _ h1 ih
    · have h1 : ∀ s, clientLoop ((n, d) :: rest) s =
          andThenPhase (onePhase n d s) (clientLoop rest) := by
        intro s
        simp only [clientLoop, onePhase, andThenPhase]
        rw [if_neg hskip]
        cases hd : d.updateOutcome with
        | ok b => rw [attemptUpdate_ok n d _ b hd]
        | error e => rw [attemptUpdate_error n d _ e hd]
      have h2 : clientsPart ((n, d) :: rest) = (n, d) :: clientsPart rest := by
        simp [clientsPart, List.filter_cons, hskip]
        tauto
      rw [h2]
      have hcomp := PhaseSpec_comp (onePhase n d) (clientLoop rest) [(n, d)]
        (clientsPart rest) (onePhase_spec n d) ih
      exact PhaseSpec_congr _ _ _ h1 hcomp

/-- The moonraker phase satisfies the contract of the Host part as soon
as a moonraker deployment is registered (the constructor always
registers one). -/
theorem moonrakerPhase_spec (us : List (String × DeployB))
    (hm : (alookup us "moonraker").isSome = true) :
    PhaseSpec (moonrakerPhase us) (moonPart us) := by
  cases hl : alookup us "moonraker" with
  | none =>
    rw [hl] at hm
    exact absurd hm (by simp)
  | some d =>
    have hp : moonPart us = [("moonraker", d)] := by
      unfold moonPart
      rw [hl]
    rw [hp]
    apply PhaseSpec_congr _ (onePhase "moonraker" d) _ _ (onePhase_spec "moonraker" d)
    intro s
    simp only [moonrakerPhase, onePhase, hl]
    cases hd : d.updateOutcome with
    | ok b => rw [attemptUpdate_ok "moonraker" d _ b hd]
    | error e => rw [attemptUpdate_error "moonraker" d _ e hd]

/-- The two reconnect-handshake notifications of the klipper phase,
whatever their content, only extend the event log. -/
theorem events_emit2 (s : FullSt) (r1 r2 : String) (c1 c2 : Bool) :
    ∃ tl, (emitResp r2 c2 (emitResp r1 c1 s)).events = s.events ++ tl :=
  ⟨notifyUpdateResponse s.ch r1 c1 ++ notifyUpdateResponse s.ch r2 c2,
   List.append_assoc _ _ _⟩

/-- The klipper phase satisfies the contract of the Control-process
part. -/
theorem klipperPhase_spec (us : List (String × DeployB)) (kr : Bool) :
    PhaseSpec (klipperPhase us kr) (klipperPart us) := by
  cases hl : alookup us "klipper" with
  | none =>
    have hp : klipperPart us = [] := by
      unfold klipperPart
      rw [hl]
    rw [hp]
    apply PhaseSpec_skip
    intro s
    refine ⟨"klipper", ?_⟩
    simp only [klipperPhase]
    rw [hl]
  | some d =>
    by_cases hap : d.isApp = true
    · have hp : klipperPart us = [("klipper", d)] := by
        simp [klipperPart, hl, hap]
      rw [hp]
      intro s
      simp only [klipperPhase, hl]
      rw [if_pos hap]
      cases hd : d.updateOutcome with
      | error e =>
        rw [attemptUpdate_error "klipper" d _ e hd]
        refine ⟨?_, rfl, rfl, rfl, rfl, ⟨[], by simp⟩, ?_⟩
        · simp [phasesRun, hd]
        · simp [firstFailure, hd]
      | ok b =>
        simp only [attemptUpdate_ok "klipper" d _ b hd]
        by_cases har : d.addsRestart = true
        · rw [if_pos har]
          split
          · split
            · refine ⟨?_, rfl, rfl, rfl, rfl, events_emit2 _ _ _ _ _, ?_⟩
              · simp [phasesRun, hd, emitResp]
              · simp [firstFailure, hd]
            · refine ⟨?_, rfl, rfl, rfl, rfl, events_emit2 _ _ _ _ _, ?_⟩
              · simp [phasesRun, hd, emitResp]
              · simp [firstFailure, hd]
          · refine ⟨?_, rfl, rfl, rfl, rfl, ⟨[], by simp⟩, ?_⟩
            · simp [phasesRun, hd]
            · simp [firstFailure, hd]
        · rw [if_neg har]
          split
          · split
            · refine ⟨?_, rfl, rfl, rfl, rfl, events_emit2 _ _ _ _ _, ?_⟩
              · simp [phasesRun, hd, emitResp]
              · simp [firstFailure, hd]
            · refine ⟨?_, rfl, rfl, rfl, rfl, events_emit2 _ _ _ _ _, ?_⟩
              · simp [phasesRun, hd, emitResp]
              · simp [firstFailure, hd]
          · refine ⟨?_, rfl, rfl, rfl, rfl, ⟨[], by simp⟩, ?_⟩
            · simp [phasesRun, hd]
            · simp [firstFailure, hd]
    · have hp : klipperPart us = [] := by
        simp [klipperPart, hl, hap]
      rw [hp]
      apply PhaseSpec_skip
      intro s
      refine ⟨"klipper", ?_⟩
      simp only [klipperPhase, hl]
      rw [if_neg hap]

/-- The whole try body of the full-update handler satisfies the
contract of the spec-side ordered phase list. -/
theorem fullUpdateTry_spec (us : List (String × DeployB)) (kr : Bool)
    (hm : (alookup us "moonraker").isSome = true) :
    PhaseSpec (fullUpdateTry us kr) (orderedPhases us) := by
  have h1 := PhaseSpec_comp _ _ _ _ (systemPhase_spec us) (clientLoop_spec us)
  have h2 := PhaseSpec_comp _ _ _ _ h1 (klipperPhase_spec us kr)
  have h3 := PhaseSpec_comp _ _ _ _ h2 (moonrakerPhase_spec us hm)
  have hassoc : sysPart us ++ clientsPart us ++ klipperPart us ++ moonPart us
      = orderedPhases us := by
    unfold orderedPhases
    simp [List.append_assoc]
  rw [hassoc] at h3
  apply PhaseSpec_congr _ _ _ _ h3
  intro s
  unfold fullUpdateTry
  rfl

/-- C1: the full-update request performs the update phases in exactly
the spec order, system first when present, then the other deployments
in stable map iteration order excluding the reserved names, then
klipper, then moonraker, each phase gated by the success of all prior
phases. -/
theorem full_update_phase_order (us : List (String × DeployB)) (reqId : Nat)
    (kr : Bool) (ch0 : CommandHelper)
    (hm : (alookup us "moonraker").isSome = true) :
    (handleFullUpdateRequest us reqId kr ch0).1.calls
      = phasesRun (orderedPhases us) := by
  have hspec := fullUpdateTry_spec us kr hm
    (emitResp "Preparing full software update..." false
      { ch := chSetUpdateInfo "full" reqId ch0, events := [], calls := [],
        appName := "" })
  obtain ⟨hc, _⟩ := hspec
  have hc2 : (fullUpdateTry us kr (emitResp "Preparing full software update..." false
      { ch := chSetUpdateInfo "full" reqId ch0, events := [], calls := [],
        appName := "" })).1.calls = phasesRun (orderedPhases us) := by
    rw [hc]
    simp [emitResp]
  simp only [handleFullUpdateRequest]
  cases hfut : fullUpdateTry us kr (emitResp "Preparing full software update..." false
      { ch := chSetUpdateInfo "full" reqId ch0, events := [], calls := [],
        appName := "" }) with
  | mk sF err =>
    rw [hfut] at hc2
    cases err with
    | none => exact hc2
    | some e => exact hc2

/-- C1 witness: a concrete map with a client inserted before the
reserved deployments runs the phases in the spec order. -/
theorem full_update_phase_order_witness :
    ((alookup ([("mainsail", {}), ("system", {}),
        ("klipper", { isApp := true }), ("moonraker", { isApp := true })] :
        List (String × DeployB)) "moonraker").isSome = true) ∧
    (handleFullUpdateRequest ([("mainsail", {}), ("system", {}),
        ("klipper", { isApp := true }), ("moonraker", { isApp := true })] :
        List (String × DeployB)) 3 true {}).1.calls
      = phasesRun (orderedPhases ([("mainsail", {}), ("system", {}),
        ("klipper", { isApp := true }), ("moonraker", { isApp := true })] :
        List (String × DeployB))) :=
  ⟨by decide, full_update_phase_order _ 3 true {} (by decide)⟩

/-- C2: when a phase of the full-update sequence raises, no later phase
is attempted, the recorded failing phase is the phase that raised, the
last emitted event is the error notification naming that phase with the
session marked complete, the session state is cleared, and the handler
still returns the normal acknowledgement. -/
theorem full_update_failure_stops (us pre post : List (String × DeployB))
    (n e : String) (d : DeployB) (reqId : Nat) (kr : Bool)
    (ch0 : CommandHelper)
    (hm : (alookup us "moonraker").isSome = true)
    (hdec : orderedPhases us = pre ++ (n, d) :: post)
    (hpre : ∀ p ∈ pre, ∃ b, p.2.updateOutcome = Except.ok b)
    (hd : d.updateOutcome = Except.error e) :
    (handleFullUpdateRequest us reqId kr ch0).2 = "ok" ∧
    (handleFullUpdateRequest us reqId kr ch0).1.calls
      = pre.map Prod.fst ++ [n] ∧
    (handleFullUpdateRequest us reqId kr ch0).1.events.getLast? =
      some { message := pyStrip ("Error updating " ++ n ++ ": " ++ e)
             application := "full", procId := some reqId, complete := true } ∧
    (handleFullUpdateRequest us reqId kr ch0).1.ch.curUpdateApp = none ∧
    (handleFullUpdateRequest us reqId kr ch0).1.ch.curUpdateId = none := by
  have hffnone := firstFailure_eq_none pre hpre
  have hff : firstFailure (orderedPhases us) = some (n, e) := by
    rw [hdec, firstFailure_append, hffnone]
    simp [firstFailure, hd]
  have hpr : phasesRun (orderedPhases us) = pre.map Prod.fst ++ [n] := by
    rw [hdec, phasesRun_append, hffnone]
    simp [phasesRun, hd, phasesRun_of_ok pre hffnone]
  have hspec := fullUpdateTry_spec us kr hm
    (emitResp "Preparing full software update..." false
      { ch := chSetUpdateInfo "full" reqId ch0, events := [], calls := [],
        appName := "" })
  obtain ⟨hc, ha, hi, hu, hcmp, hev, herr⟩ := hspec
  rw [hff] at herr
  simp only [handleFullUpdateRequest]
  cases hfut : fullUpdateTry us kr (emitResp "Preparing full software update..." false
      { ch := chSetUpdateInfo "full" reqId ch0, events := [], calls := [],
        appName := "" }) with
  | mk sF err =>
    rw [hfut] at hc ha hi hu herr
    have herrE : err = some e := herr.1
    have herrN : sF.appName = n := herr.2
    subst herrE
    have hcalls : sF.calls = pre.map Prod.fst ++ [n] := by
      have h2 : sF.calls = (emitResp "Preparing full software update..." false
          { ch := chSetUpdateInfo "full" reqId ch0, events := [], calls := [],
            appName := "" } : FullSt).calls ++ phasesRun (orderedPhases us) := hc
      rw [hpr] at h2
      simpa [emitResp] using h2
    have haA : sF.ch.curUpdateApp = some "full" := ha
    have hiA : sF.ch.curUpdateId = some reqId := hi
    have huA : sF.ch.fullUpdate = true := by
      rw [hu]
      simp [emitResp, chSetUpdateInfo]
    have hnotif : notifyUpdateResponse (chSetFullComplete true sF.ch)
        ("Error updating " ++ sF.appName ++ ": " ++ e) true =
        [{ message := pyStrip ("Error updating " ++ n ++ ": " ++ e)
           application := "full", procId := some reqId, complete := true }] := by
      simp [notifyUpdateResponse, chSetFullComplete, haA, hiA, huA, herrN]
    have heq2 : (emitResp ("Error updating " ++ sF.appName ++ ": " ++ e) true
        { sF with ch := chSetFullComplete true sF.ch } : FullSt).events
        = sF.events ++
          [{ message := pyStrip ("Error updating " ++ n ++ ": " ++ e),
             application := "full", procId := some reqId, complete := true }] := by
      simp [emitResp, hnotif]
    refine ⟨rfl, hcalls, ?_, rfl, rfl⟩
    show (emitResp ("Error updating " ++ sF.appName ++ ": " ++ e) true
        { sF with ch := chSetFullComplete true sF.ch } : FullSt).events.getLast?
      = some { message := pyStrip ("Error updating " ++ n ++ ": " ++ e),
               application := "full", procId := some reqId, complete := true }
    rw [heq2, List.getLast?_concat]

/-- C2 witness: with the klipper update raising, the moonraker phase is
never attempted, the failing phase is recorded as klipper, the complete
error notification is the last event, the session is cleared and the
handler acknowledges normally. -/
theorem full_update_failure_stops_witness :
    (handleFullUpdateRequest ([("system", {}), ("mainsail", {}),
        ("klipper", { isApp := true, updateOutcome := Except.error "boom" }),
        ("moonraker", { isApp := true })] : List (String × DeployB))
        9 true {}).2 = "ok" ∧
    (handleFullUpdateRequest ([("system", {}), ("mainsail", {}),
        ("klipper", { isApp := true, updateOutcome := Except.error "boom" }),
        ("moonraker", { isApp := true })] : List (String × DeployB))
        9 true {}).1.calls = ["system", "mainsail", "klipper"] ∧
    (handleFullUpdateRequest ([("system", {}), ("mainsail", {}),
        ("klipper", { isApp := true, updateOutcome := Except.error "boom" }),
        ("moonraker", { isApp := true })] : List (String × DeployB))
        9 true {}).1.events.getLast? =
      some { message := pyStrip ("Error updating " ++ "klipper" ++ ": " ++ "boom")
             application := "full", procId := some 9, complete := true } ∧
    (handleFullUpdateRequest ([("system", {}), ("mainsail", {}),
        ("klipper", { isApp := true, updateOutcome := Except.error "boom" }),
        ("moonraker", { isApp := true })] : List (String × DeployB))
        9 true {}).1.ch.curUpdateApp = none ∧
    (handleFullUpdateRequest ([("system", {}), ("mainsail", {}),
        ("klipper", { isApp := true, updateOutcome := Except.error "boom" }),
        ("moonraker", { isApp := true })] : List (String × DeployB))
        9 true {}).1.ch.curUpdateId = none :=
  full_update_failure_stops
    [("system", {}), ("mainsail", {}),
     ("klipper", { isApp := true, updateOutcome := Except.error "boom" }),
     ("moonraker", { isApp := true })]
    [("system", {}), ("mainsail", {})]
    [("moonraker", { isApp := true })]
    "klipper" "boom" { isApp := true, updateOutcome := Except.error "boom" }
    9 true {} (by decide) (by decide)
    (by
      intro p hp
      simp only [List.mem_cons, List.not_mem_nil, or_false] at hp
      rcases hp with rfl | rfl
      · exact ⟨true, rfl⟩
      · exact ⟨true, rfl⟩)
    rfl

end Moonraker
